import Mathlib

/-!
# Verification of the MCP context-engineering client/server demo

Shallow embedding of `client.py` (class `MCPClient`) and `server.py`.

External collaborators (the MCP `ClientSession`, the OpenAI backend and
`json.loads`) are modelled as oracle functions stored in an `Env` record;
each fallible external call returns `Except String α`, the `String` being
the Python exception description (`str(e)`).  Every interaction with the
session or the model backend is additionally recorded in an event trace,
which is how "makes no side calls" / "exactly one model request" style
properties are stated.  The unbounded `while assistant_output.tool_calls`
loop of `process_query` is embedded with explicit fuel bounding the number
of executions of the loop body; exhausting the fuel is reported as a
distinguished `diverges` outcome, never silently as a normal return.
-/

namespace MCPDemo

/-- A JSON-like structured value: the result of `json.loads` on the
tool-call arguments text, passed opaquely by the client to `call_tool`
(the demo's tools take flat string-valued argument objects, so one level
of object structure suffices for the embedding). -/
inductive JVal where
  | jnull
  | jbool (b : Bool)
  | jnum (n : Int)
  | jstr (s : String)
  | jobj (fields : List (String × String))
  deriving DecidableEq, Repr

/-- A JSON-object schema, as carried in a tool descriptor's `inputSchema`
and in the `parameters` field of an OpenAI function schema.  Only the
object structure matters to the client; field values are kept opaque. -/
inductive Schema where
  | obj (fields : List (String × JVal))
  deriving DecidableEq, Repr

/-- MCP tool descriptor as consumed by `tools_to_openai_functions`:
`tool.name`, `tool.description`, `tool.inputSchema` (absent = `none`;
Python `tool.inputSchema or {}` replaces a missing schema by `{}`). -/
structure Tool where
  name : String
  description : String
  inputSchema : Option Schema
  deriving DecidableEq, Repr

/-- One entry of the `tools=` list sent to the OpenAI API:
`{"type": "function", "function": {"name": …, "description": …,
"parameters": …}}`.  `schema_type` embeds the literal `"type"` key. -/
structure FunctionSchema where
  schema_type : String
  name : String
  description : String
  parameters : Schema
  deriving DecidableEq, Repr

/-- A tool call carried by an assistant message:
`tool_call.id`, `tool_call.function.name`,
`tool_call.function.arguments` (the raw arguments text). -/
structure ToolCall where
  id : String
  name : String
  arguments : String
  deriving DecidableEq, Repr

/-- The message object returned by
`response.choices[0].message`: `content` may be `null`; a `None` or
missing `tool_calls` field and an empty list are both embedded as `[]`
(both are falsy for the `while assistant_output.tool_calls:` test). -/
structure AssistantMsg where
  content : Option String
  tool_calls : List ToolCall
  deriving DecidableEq, Repr

/-- One entry of the `messages` list of `process_query`. -/
inductive Message where
  | user (content : String)
  | assistant (content : Option String) (tool_calls : List ToolCall)
  | tool (content : String) (tool_call_id : String)
  deriving DecidableEq, Repr

/-- The `role` field of a message dict. -/
def Message.role : Message → String
  | .user _ => "user"
  | .assistant _ _ => "assistant"
  | .tool _ _ => "tool"

/-- The `tool_call_id` field of a message dict (`none` when absent). -/
def Message.toolCallId : Message → Option String
  | .tool _ i => some i
  | _ => none

/-- Observable interactions of one `process_query` run with the MCP
session and the model backend, in order of occurrence. -/
inductive Event where
  | listToolsCalled
  | modelRequest (messages : List Message) (tools : List FunctionSchema)
  | toolInvoke (name : String) (args : JVal)
  | resourceRead (uri : String)
  | promptGet (name : String) (args : List (String × String))
  deriving DecidableEq, Repr

/-- `true` for a `modelRequest` event. -/
def Event.isModelRequest : Event → Bool
  | .modelRequest _ _ => true
  | _ => false

/-- `true` for a `toolInvoke` event. -/
def Event.isToolInvoke : Event → Bool
  | .toolInvoke _ _ => true
  | _ => false

/-- `true` for a `listToolsCalled` event. -/
def Event.isListTools : Event → Bool
  | .listToolsCalled => true
  | _ => false

/-- Oracle record for the external collaborators of `MCPClient`:
`mcp_connected` is the truthiness of `self.mcp_session`; `list_tools`,
`read_resource`, `get_prompt` and `call_tool` stand for the session
round-trips (`call_tool`'s success value is the rendered content text
`result.content[0].text if hasattr(result, 'content') else str(result)`);
`parse_args` stands for `json.loads`; `complete` stands for
`self.ai_client.chat.completions.create(...).choices[0].message`.
An `Except.error e` models the call raising, with `str(e) = e`. -/
structure Env where
  mcp_connected : Bool
  list_tools : List Tool
  read_resource : String → Except String String
  get_prompt : String → List (String × String) → Except String String
  call_tool : String → JVal → Except String String
  parse_args : String → Except String JVal
  complete : List Message → List FunctionSchema → Except String AssistantMsg

/-- `leadsWith needle hay`: `hay` starts with `needle` (character lists). -/
def leadsWith : List Char → List Char → Bool
  | [], _ => true
  | _ :: _, [] => false
  | a :: as, b :: bs => a == b && leadsWith as bs

/-- `occursIn needle hay`: `needle` occurs contiguously inside `hay`. -/
def occursIn (needle : List Char) : List Char → Bool
  | [] => leadsWith needle []
  | c :: t => leadsWith needle (c :: t) || occursIn needle t

/-- Python's `indicator in query` substring test. -/
def containsSub (query indicator : String) : Bool :=
  occursIn indicator.data query.data

/-- `isBJ = any(indicator in query for indicator in ["北京"])`. -/
def isBJ (query : String) : Bool :=
  (["北京"]).any fun indicator => containsSub query indicator

/-- `isTourist = any(indicator in query for indicator in ["景点", "旅游"])`. -/
def isTourist (query : String) : Bool :=
  (["景点", "旅游"]).any fun indicator => containsSub query indicator

/-- `MCPClient.select_prompt_and_enhanced_query`, returning the result of
the coroutine (enhanced query, or the exception raised by a session call)
together with the trace of session interactions it performed. -/
def select_prompt_and_enhanced_query (env : Env) (query : String) :
    Except String String × List Event :=
  if !(isBJ query && isTourist query) then
    (.ok query, [])
  else
    let resources_uri := "city-tourist-doc://北京/city-tourist.md"
    match env.read_resource resources_uri with
    | .error e => (.error e, [.resourceRead resources_uri])
    | .ok city_info =>
      let template_name := "top_beijing_tourist_spots"
      match env.get_prompt template_name [("city_info", city_info)] with
      | .error e =>
        (.error e,
         [.resourceRead resources_uri, .promptGet template_name [("city_info", city_info)]])
      | .ok prompt_text =>
        (.ok (prompt_text ++ "\n\n用户问题:\n\n" ++ query),
         [.resourceRead resources_uri, .promptGet template_name [("city_info", city_info)]])

/-- The pure part of `MCPClient.tools_to_openai_functions`: the list
comprehension mapping each MCP tool descriptor to an OpenAI function
schema (`tool.inputSchema or {}` defaults a missing schema to the empty
object; an empty-object schema is falsy in Python and is likewise
replaced by `{}`, the same value). -/
def tools_to_openai_functions (tools : List Tool) : List FunctionSchema :=
  tools.map fun tool =>
    { schema_type := "function"
      name := tool.name
      description := tool.description
      parameters := tool.inputSchema.getD (Schema.obj []) }

/-- The `for tool_call in assistant_output.tool_calls:` body of
`process_query`: parse the arguments text with `json.loads`, invoke the
tool, append `{role: tool, content, tool_call_id}` to `messages`.  An
`Except.error` is a raised exception escaping the `for` loop (there is no
per-call handler in the source).  Also returns the trace of attempted
tool invocations. -/
def execTools (env : Env) (calls : List ToolCall) (messages : List Message) :
    Except String (List Message) × List Event :=
  match calls with
  | [] => (.ok messages, [])
  | tool_call :: rest =>
    match env.parse_args tool_call.arguments with
    | .error e => (.error e, [])
    | .ok tool_args =>
      match env.call_tool tool_call.name tool_args with
      | .error e => (.error e, [.toolInvoke tool_call.name tool_args])
      | .ok text =>
        let msgs1 := messages ++ [Message.tool text tool_call.id]
        let (r, tr) := execTools env rest msgs1
        (r, .toolInvoke tool_call.name tool_args :: tr)

/-- Outcome of the `try:` block of `process_query`: a Python return value
(`content` is `str` or `None`), a raised exception, or fuel exhaustion of
the unbounded `while` loop. -/
inductive PyResult where
  | ok (content : Option String)
  | exn (e : String)
  | diverge
  deriving DecidableEq, Repr

/-- The `while assistant_output.tool_calls:` loop of `process_query`.
`fuel` bounds the number of loop-body executions (each body runs all the
turn's tool calls and then one more model request). -/
def process_query_loop (env : Env) (openai_tools : List FunctionSchema) (fuel : Nat)
    (messages : List Message) (assistant_output : AssistantMsg) :
    PyResult × List Event :=
  if assistant_output.tool_calls.isEmpty then
    (.ok assistant_output.content, [])
  else
    match fuel with
    | 0 => (.diverge, [])
    | Nat.succ fuel =>
      match execTools env assistant_output.tool_calls messages with
      | (.error e, tr) => (.exn e, tr)
      | (.ok msgs1, tr) =>
        match env.complete msgs1 openai_tools with
        | .error e => (.exn e, tr ++ [.modelRequest msgs1 openai_tools])
        | .ok next_output =>
          let msgs2 := msgs1 ++ [Message.assistant next_output.content next_output.tool_calls]
          let (r, tr2) := process_query_loop env openai_tools fuel msgs2 next_output
          (r, tr ++ [.modelRequest msgs1 openai_tools] ++ tr2)

/-- The `try:` block of `process_query`: augment the query, build the
function schemas (one `list_tools` round-trip), send the initial model
request, then run the tool-call loop. -/
def process_query_body (env : Env) (fuel : Nat) (query : String) :
    PyResult × List Event :=
  match select_prompt_and_enhanced_query env query with
  | (.error e, tr) => (.exn e, tr)
  | (.ok enhanced_query, tr) =>
    let openai_tools := tools_to_openai_functions env.list_tools
    let messages := [Message.user enhanced_query]
    match env.complete messages openai_tools with
    | .error e => (.exn e, tr ++ [.listToolsCalled, .modelRequest messages openai_tools])
    | .ok assistant_output =>
      let msgs1 := messages ++
        [Message.assistant assistant_output.content assistant_output.tool_calls]
      let (r, tr2) := process_query_loop env openai_tools fuel msgs1 assistant_output
      (r, tr ++ [.listToolsCalled, .modelRequest messages openai_tools] ++ tr2)

/-- The Python value returned by `process_query` (`str` or `None`), or
divergence of the unbounded loop. -/
inductive QueryOutcome where
  | returns (value : Option String)
  | diverges
  deriving DecidableEq, Repr

/-- `MCPClient.process_query`: the not-connected guard, the `try:` body,
and the `except Exception` handler turning any raised exception into the
error string `"❌ 处理查询时出错: " + str(e)`. -/
def process_query (env : Env) (fuel : Nat) (query : String) :
    QueryOutcome × List Event :=
  if !env.mcp_connected then
    (.returns (some "❌ 未连接到MCP服务器"), [])
  else
    match process_query_body env fuel query with
    | (.ok content, tr) => (.returns content, tr)
    | (.exn e, tr) => (.returns (some ("❌ 处理查询时出错: " ++ e)), tr)
    | (.diverge, tr) => (.diverges, tr)

/-! ## Server side (`server.py`) -/

/-- `server._read_file_content`: `fs path` models `open(path).read()`,
with `Except.error e` a raised OS error whose description is `str(e)`.
The `except` clause converts any failure into the returned text
`"读取文件 {file_path} 失败: {str(e)}"`. -/
def read_file_content (fs : String → Except String String) (file_path : String) : String :=
  match fs file_path with
  | .ok content => content
  | .error e => "读取文件 " ++ file_path ++ " 失败: " ++ e

/-- `server.city_tourist`, the handler of the resource template
`city-tourist-doc://{city}/city-tourist.md`: URL-decode the city
(`unquote`, modelled by the oracle `uq`) and read the city document. -/
def city_tourist (fs : String → Except String String) (uq : String → String)
    (city : String) : String :=
  read_file_content fs ("./resources/" ++ uq city ++ "景点推荐.md")

/-- `server.top_beijing_tourist_spots`: the prompt template rendered
server-side from its `city_info` argument. -/
def top_beijing_tourist_spots (city_info : String) : String :=
  "你是旅游博主，非常了解北京文化，按以下内容进行推荐\n\n" ++ city_info

/-! ## Concrete environments (used by witnesses and counterexamples) -/

/-- The two tools exposed by `server.py`, as MCP descriptors; the time
tool declares no input schema. -/
def demoTools : List Tool :=
  [⟨"get_current_weather", "天气查询工具", some (Schema.obj [("location", JVal.jstr "城市名称")])⟩,
   ⟨"get_current_time", "查询当前时间的工具", none⟩]

/-- A well-behaved environment: the Beijing resource and the Beijing
prompt template resolve (the template rendered by the embedded server
code), every tool call succeeds, arguments parse unless they are the
literal text `bad`, and the model always answers directly. -/
def demoEnv : Env where
  mcp_connected := true
  list_tools := demoTools
  read_resource := fun uri =>
    if uri = "city-tourist-doc://北京/city-tourist.md" then .ok "北京景点文档"
    else .error "unknown resource"
  get_prompt := fun nm args =>
    if nm = "top_beijing_tourist_spots" then
      match args with
      | [(k, v)] => if k = "city_info" then .ok (top_beijing_tourist_spots v)
                    else .error "missing argument"
      | _ => .error "bad arguments"
    else .error "unknown template"
  call_tool := fun nm _ => .ok ("result of " ++ nm)
  parse_args := fun s => if s = "bad" then .error "Expecting value" else .ok (.jobj [])
  complete := fun _ _ => .ok ⟨some "最终回答", []⟩

/-- A tool call whose arguments text does not parse. -/
def tcBad : ToolCall := ⟨"call_1", "get_current_weather", "bad"⟩

/-- A tool call whose arguments parse and whose invocation succeeds. -/
def tcGood : ToolCall := ⟨"call_2", "get_current_time", "ok"⟩

/-- Like `demoEnv`, but the first model response requests `tcBad` then
`tcGood`, and any later response answers directly. -/
def cexEnv : Env :=
  { demoEnv with
    complete := fun msgs _ =>
      if msgs.length = 1 then .ok ⟨none, [tcBad, tcGood]⟩
      else .ok ⟨some "done", []⟩ }

/-- Like `demoEnv`, but every resource read fails. -/
def failEnv : Env :=
  { demoEnv with read_resource := fun _ => .error "Resource not found" }

/-- Like `demoEnv`, but with no session connected. -/
def discEnv : Env := { demoEnv with mcp_connected := false }

/-- Like `demoEnv`, but the model's answer carries null content. -/
def nullEnv : Env := { demoEnv with complete := fun _ _ => .ok ⟨none, []⟩ }

/-- A filesystem on which every read raises. -/
def missingFs : String → Except String String :=
  fun p => .error ("No such file or directory: " ++ p)

/-! ## Theorems -/

/-- C4: a query matching no augmentation rule (it does not contain both a
locality keyword and a topic keyword) is returned exactly unchanged — the
code's counterpart of `used_template = false` is that no augmentation is
performed — with an empty interaction trace (no `read_resource`, no
`get_prompt`) and a success result (never fails). -/
theorem augment_identity_no_match (env : Env) (query : String)
    (h : (isBJ query && isTourist query) = false) :
    select_prompt_and_enhanced_query env query = (.ok query, []) := by
  unfold select_prompt_and_enhanced_query
  simp [h]

/-- Witness for `augment_identity_no_match` at the spec's scenario query
`今天天气怎么样`, which matches no rule. -/
theorem augment_identity_no_match_witness :
    (isBJ "今天天气怎么样" && isTourist "今天天气怎么样") = false ∧
    select_prompt_and_enhanced_query demoEnv "今天天气怎么样" =
      (.ok "今天天气怎么样", []) :=
  ⟨by decide, augment_identity_no_match demoEnv "今天天气怎么样" (by decide)⟩

/-- C5: the catalog translation is 1:1 and order-preserving — the output
list has the same length as the input, and the `i`-th function schema is
built from the `i`-th tool's name, description and input schema, a
missing input schema becoming the empty-object schema. -/
theorem catalog_translation_one_to_one (tools : List Tool) (i : Nat) (t : Tool)
    (h : tools[i]? = some t) :
    (tools_to_openai_functions tools).length = tools.length ∧
    (tools_to_openai_functions tools)[i]? = some
      { schema_type := "function", name := t.name, description := t.description,
        parameters := t.inputSchema.getD (Schema.obj []) } := by
  constructor
  · simp [tools_to_openai_functions]
  · simp [tools_to_openai_functions, h]

/-- Witness for `catalog_translation_one_to_one` at index 1 of the demo
catalog, whose tool (`get_current_time`) has no input schema: the
resulting `parameters` is the empty-object schema. -/
theorem catalog_translation_one_to_one_witness :
    (tools_to_openai_functions demoTools).length = demoTools.length ∧
    (tools_to_openai_functions demoTools)[1]? = some
      { schema_type := "function", name := "get_current_time",
        description := "查询当前时间的工具", parameters := Schema.obj [] } :=
  catalog_translation_one_to_one demoTools 1
    ⟨"get_current_time", "查询当前时间的工具", none⟩ rfl

/-- C7 counterexample: the claim says `read_resource` on an unreadable
city document fails with `ResourceNotFound`, but `_read_file_content`
catches the raised OS error and the `city_tourist` handler returns
normally: the resource read yields the failure-description TEXT, it does
not fail.  Shown at the Beijing URI over a filesystem with no files. -/
theorem missing_file_returns_text_cex :
    city_tourist missingFs (fun c => c) "北京" =
      "读取文件 " ++ ("./resources/" ++ "北京" ++ "景点推荐.md") ++ " 失败: " ++
        ("No such file or directory: " ++ ("./resources/" ++ "北京" ++ "景点推荐.md")) := by
  decide

/-- C7 amended: when the underlying file read raises, `city_tourist`
returns (rather than failing) the text `读取文件 <path> 失败: <error>`,
where `<path>` is the decoded city's document path. -/
theorem missing_file_error_text (fs : String → Except String String)
    (uq : String → String) (city e : String)
    (h : fs ("./resources/" ++ uq city ++ "景点推荐.md") = .error e) :
    city_tourist fs uq city =
      "读取文件 " ++ ("./resources/" ++ uq city ++ "景点推荐.md") ++ " 失败: " ++ e := by
  simp [city_tourist, read_file_content, h]

/-- Witness for `missing_file_error_text` on a filesystem with no
files, city `北京`, identity URL-decoding. -/
theorem missing_file_error_text_witness :
    city_tourist missingFs (fun c => c) "上海" =
      "读取文件 " ++ ("./resources/" ++ "上海" ++ "景点推荐.md") ++ " 失败: " ++
        ("No such file or directory: " ++ ("./resources/" ++ "上海" ++ "景点推荐.md")) :=
  missing_file_error_text missingFs (fun c => c) "上海"
    ("No such file or directory: " ++ ("./resources/" ++ "上海" ++ "景点推荐.md")) rfl

/-- C8: for the query `北京有什么景点` (locality and topic keywords both
present), augmentation reads the Beijing city resource, renders the
`top_beijing_tourist_spots` template with the resource content as its
`city_info` argument, and the effective query is the rendered template,
then the literal separator, then the original query, in that order. -/
theorem beijing_query_augmented (env : Env) (info prompt_text : String)
    (hres : env.read_resource "city-tourist-doc://北京/city-tourist.md" = .ok info)
    (hp : env.get_prompt "top_beijing_tourist_spots" [("city_info", info)] = .ok prompt_text) :
    select_prompt_and_enhanced_query env "北京有什么景点" =
      (.ok (prompt_text ++ "\n\n用户问题:\n\n" ++ "北京有什么景点"),
       [.resourceRead "city-tourist-doc://北京/city-tourist.md",
        .promptGet "top_beijing_tourist_spots" [("city_info", info)]]) := by
  have hm : (isBJ "北京有什么景点" && isTourist "北京有什么景点") = true := by decide
  unfold select_prompt_and_enhanced_query
  simp [hm, hres, hp]

/-- Witness for `beijing_query_augmented` in the demo environment, whose
`get_prompt` renders the embedded server template
`top_beijing_tourist_spots` on the fetched resource content. -/
theorem beijing_query_augmented_witness :
    select_prompt_and_enhanced_query demoEnv "北京有什么景点" =
      (.ok (top_beijing_tourist_spots "北京景点文档" ++ "\n\n用户问题:\n\n" ++ "北京有什么景点"),
       [.resourceRead "city-tourist-doc://北京/city-tourist.md",
        .promptGet "top_beijing_tourist_spots" [("city_info", "北京景点文档")]]) :=
  beijing_query_augmented demoEnv "北京景点文档" (top_beijing_tourist_spots "北京景点文档")
    rfl rfl

/-- C2: whenever a turn's tool-execution phase completes, the messages it
appended after the assistant message are exactly one `{role: tool}`
message per ToolCall: same count, `tool_call_id`s equal to the ToolCalls'
ids position by position (hence a bijection, in the emitted order). -/
theorem turn_tool_messages_bijection (env : Env) (calls : List ToolCall)
    (messages msgs1 : List Message)
    (h : (execTools env calls messages).1 = .ok msgs1) :
    ∃ ts : List Message,
      msgs1 = messages ++ ts ∧
      ts.map Message.role = calls.map (fun _ => "tool") ∧
      ts.map Message.toolCallId = calls.map (fun c => some c.id) := by
  induction calls generalizing messages with
  | nil =>
    simp [execTools] at h
    exact ⟨[], by simp [h], rfl, rfl⟩
  | cons c rest ih =>
    unfold execTools at h
    cases hp : env.parse_args c.arguments with
    | error e => rw [hp] at h; simp at h
    | ok args =>
      rw [hp] at h
      dsimp only [] at h
      cases hc : env.call_tool c.name args with
      | error e => rw [hc] at h; simp at h
      | ok text =>
        rw [hc] at h
        dsimp only [] at h
        rcases hrec : execTools env rest (messages ++ [Message.tool text c.id]) with ⟨r, tr⟩
        rw [hrec] at h
        simp at h
        obtain ⟨ts, h1, h2, h3⟩ := ih (messages ++ [Message.tool text c.id]) (by rw [hrec, h])
        refine ⟨Message.tool text c.id :: ts, ?_, ?_, ?_⟩
        · simpa using h1
        · simpa [Message.role] using h2
        · simpa [Message.toolCallId] using h3

/-- Witness for `turn_tool_messages_bijection`: a completed two-call turn
in the demo environment yields two tool messages carrying the two call
ids in order. -/
theorem turn_tool_messages_bijection_witness :
    ∃ ts : List Message,
      ([Message.tool "result of get_current_weather" "id1",
        Message.tool "result of get_current_time" "id2"] : List Message) = [] ++ ts ∧
      ts.map Message.role =
        ([⟨"id1", "get_current_weather", "w1"⟩,
          ⟨"id2", "get_current_time", "w2"⟩] : List ToolCall).map (fun _ => "tool") ∧
      ts.map Message.toolCallId =
        ([⟨"id1", "get_current_weather", "w1"⟩,
          ⟨"id2", "get_current_time", "w2"⟩] : List ToolCall).map (fun c => some c.id) :=
  turn_tool_messages_bijection demoEnv
    [⟨"id1", "get_current_weather", "w1"⟩, ⟨"id2", "get_current_time", "w2"⟩] [] _ rfl

/-- The augmentation step performs at most one resource read followed by
at most one template rendering: its trace is one of three shapes. -/
lemma select_trace_cases (env : Env) (query : String) :
    (select_prompt_and_enhanced_query env query).2 = [] ∨
    (select_prompt_and_enhanced_query env query).2 =
      [.resourceRead "city-tourist-doc://北京/city-tourist.md"] ∨
    ∃ info, (select_prompt_and_enhanced_query env query).2 =
      [.resourceRead "city-tourist-doc://北京/city-tourist.md",
       .promptGet "top_beijing_tourist_spots" [("city_info", info)]] := by
  unfold select_prompt_and_enhanced_query
  split
  · left; rfl
  · dsimp only []
    cases hr : env.read_resource "city-tourist-doc://北京/city-tourist.md" with
    | error e => right; left; rfl
    | ok info =>
      dsimp only []
      cases hp : env.get_prompt "top_beijing_tourist_spots" [("city_info", info)] with
      | error e => right; right; exact ⟨info, rfl⟩
      | ok prompt_text => right; right; exact ⟨info, rfl⟩

/-- The augmentation step makes no model request, invokes no tool, and
does not list the tool catalog. -/
lemma select_trace_no_model (env : Env) (query : String) :
    (select_prompt_and_enhanced_query env query).2.countP Event.isModelRequest = 0 ∧
    (select_prompt_and_enhanced_query env query).2.countP Event.isToolInvoke = 0 ∧
    (select_prompt_and_enhanced_query env query).2.countP Event.isListTools = 0 ∧
    (∀ ms ts, Event.modelRequest ms ts ∉ (select_prompt_and_enhanced_query env query).2) ∧
    Event.listToolsCalled ∉ (select_prompt_and_enhanced_query env query).2 := by
  rcases select_trace_cases env query with h | h | ⟨info, h⟩ <;>
    simp [h, List.countP_cons, Event.isModelRequest, Event.isToolInvoke, Event.isListTools]

/-- Every event of a tool-execution phase is a tool invocation. -/
lemma execTools_trace_toolInvoke (env : Env) (calls : List ToolCall)
    (messages : List Message) :
    ∀ ev ∈ (execTools env calls messages).2, ev.isToolInvoke = true := by
  induction calls generalizing messages with
  | nil => intro ev hev; simp [execTools] at hev
  | cons c rest ih =>
    intro ev hev
    unfold execTools at hev
    cases hp : env.parse_args c.arguments with
    | error e => rw [hp] at hev; simp at hev
    | ok args =>
      rw [hp] at hev
      dsimp only [] at hev
      cases hc : env.call_tool c.name args with
      | error e =>
        rw [hc] at hev
        simp at hev
        simp [hev, Event.isToolInvoke]
      | ok text =>
        rw [hc] at hev
        dsimp only [] at hev
        rcases hrec : execTools env rest (messages ++ [Message.tool text c.id]) with ⟨r, tr⟩
        rw [hrec] at hev
        simp at hev
        rcases hev with hev | hev
        · simp [hev, Event.isToolInvoke]
        · have h2 := ih (messages ++ [Message.tool text c.id])
          rw [hrec] at h2
          exact h2 ev hev

/-- A tool-invocation event is neither a model request nor a catalog
listing. -/
lemma event_toolInvoke_props (ev : Event) (h : ev.isToolInvoke = true) :
    ev.isListTools = false ∧ ev.isModelRequest = false ∧
    (∀ ms ts, ev ≠ .modelRequest ms ts) ∧ ev ≠ .listToolsCalled := by
  cases ev <;> simp_all [Event.isToolInvoke, Event.isListTools, Event.isModelRequest]

/-- The tool-call loop never lists the catalog again, and every model
request it sends carries exactly the schema list it was given. -/
lemma loop_trace_props (env : Env) (tools : List FunctionSchema) (fuel : Nat) :
    ∀ (messages : List Message) (a : AssistantMsg) (ev : Event),
      ev ∈ (process_query_loop env tools fuel messages a).2 →
      ev ≠ .listToolsCalled ∧ (∀ ms ts, ev = .modelRequest ms ts → ts = tools) := by
  induction fuel with
  | zero =>
    intro messages a ev hev
    unfold process_query_loop at hev
    split at hev <;> simp at hev
  | succ fuel ih =>
    intro messages a ev hev
    unfold process_query_loop at hev
    split at hev
    · simp at hev
    · rcases hex : execTools env a.tool_calls messages with ⟨r, tr⟩
      have hshape : ∀ ev2 ∈ tr, Event.isToolInvoke ev2 = true := fun ev2 h2 => by
        have h0 := execTools_trace_toolInvoke env a.tool_calls messages ev2
        rw [hex] at h0
        exact h0 h2
      rw [hex] at hev
      cases r with
      | error e =>
        dsimp only [] at hev
        obtain ⟨-, -, hne, hnl⟩ := event_toolInvoke_props ev (hshape ev hev)
        exact ⟨hnl, fun ms ts heq => absurd heq (hne ms ts)⟩
      | ok msgs1 =>
        dsimp only [] at hev
        cases hc : env.complete msgs1 tools with
        | error e =>
          rw [hc] at hev
          dsimp only [] at hev
          simp only [List.mem_append, List.mem_singleton] at hev
          rcases hev with hev | hev
          · obtain ⟨-, -, hne, hnl⟩ := event_toolInvoke_props ev (hshape ev hev)
            exact ⟨hnl, fun ms ts heq => absurd heq (hne ms ts)⟩
          · subst hev
            refine ⟨by simp, fun ms ts heq => ?_⟩
            injection heq with h1 h2
            exact h2.symm
        | ok next_output =>
          rw [hc] at hev
          dsimp only [] at hev
          rcases hloop : process_query_loop env tools fuel
              (msgs1 ++ [Message.assistant next_output.content next_output.tool_calls])
              next_output with ⟨r2, tr2⟩
          rw [hloop] at hev
          dsimp only [] at hev
          simp only [List.append_assoc, List.mem_append, List.mem_singleton] at hev
          rcases hev with hev | hev | hev
          · obtain ⟨-, -, hne, hnl⟩ := event_toolInvoke_props ev (hshape ev hev)
            exact ⟨hnl, fun ms ts heq => absurd heq (hne ms ts)⟩
          · subst hev
            refine ⟨by simp, fun ms ts heq => ?_⟩
            injection heq with h1 h2
            exact h2.symm
          · have h2 := ih (msgs1 ++ [Message.assistant next_output.content next_output.tool_calls])
              next_output ev
            rw [hloop] at h2
            exact h2 hev

/-- Computation of the `try:` body once augmentation and the first model
request are pinned: the trace is the augmentation trace, one catalog
listing, the first model request, then whatever the loop does. -/
lemma process_query_body_eq (env : Env) (fuel : Nat) (query enhanced : String)
    (trA : List Event) (a : AssistantMsg)
    (hsel : select_prompt_and_enhanced_query env query = (.ok enhanced, trA))
    (hfirst : env.complete [Message.user enhanced]
        (tools_to_openai_functions env.list_tools) = .ok a) :
    process_query_body env fuel query =
      ((process_query_loop env (tools_to_openai_functions env.list_tools) fuel
          [Message.user enhanced, Message.assistant a.content a.tool_calls] a).1,
       trA ++ [Event.listToolsCalled,
               Event.modelRequest [Message.user enhanced]
                 (tools_to_openai_functions env.list_tools)]
         ++ (process_query_loop env (tools_to_openai_functions env.list_tools) fuel
              [Message.user enhanced, Message.assistant a.content a.tool_calls] a).2) := by
  unfold process_query_body
  rw [hsel]
  dsimp only []
  rw [hfirst]
  dsimp only []
  rcases hloop : process_query_loop env (tools_to_openai_functions env.list_tools) fuel
      [Message.user enhanced, Message.assistant a.content a.tool_calls] a with ⟨r, tr⟩
  simp [hloop]

/-- C3: when the first model response carries no tool calls (empty or
absent both embed to `[]`), `process_query` performs exactly one model
request and zero tool invocations and returns that assistant message's
content as the final answer — for any fuel, i.e. without entering the
loop at all, hence without any pre-check beyond the loop condition. -/
theorem no_tool_calls_single_request (env : Env) (fuel : Nat)
    (query enhanced : String) (trA : List Event) (a : AssistantMsg)
    (hconn : env.mcp_connected = true)
    (hsel : select_prompt_and_enhanced_query env query = (.ok enhanced, trA))
    (hfirst : env.complete [Message.user enhanced]
        (tools_to_openai_functions env.list_tools) = .ok a)
    (hempty : a.tool_calls = []) :
    (process_query env fuel query).1 = .returns a.content ∧
    (process_query env fuel query).2.countP Event.isModelRequest = 1 ∧
    (process_query env fuel query).2.countP Event.isToolInvoke = 0 := by
  have hloop : process_query_loop env (tools_to_openai_functions env.list_tools) fuel
      [Message.user enhanced, Message.assistant a.content a.tool_calls] a =
      (.ok a.content, []) := by
    unfold process_query_loop
    simp [hempty]
  have hbody := process_query_body_eq env fuel query enhanced trA a hsel hfirst
  rw [hloop] at hbody
  have hsel2 := select_trace_no_model env query
  rw [hsel] at hsel2
  simp only [process_query, hconn, hbody]
  refine ⟨rfl, ?_, ?_⟩ <;>
    simp [List.countP_append, List.countP_cons, hsel2.1, hsel2.2.1,
      Event.isModelRequest, Event.isToolInvoke]

/-- Witness for `no_tool_calls_single_request`: in the demo environment
the model answers directly; one request, zero tool invocations. -/
theorem no_tool_calls_single_request_witness :
    (process_query demoEnv 0 "你好").1 = .returns (some "最终回答") ∧
    (process_query demoEnv 0 "你好").2.countP Event.isModelRequest = 1 ∧
    (process_query demoEnv 0 "你好").2.countP Event.isToolInvoke = 0 :=
  no_tool_calls_single_request demoEnv 0 "你好" "你好" [] ⟨some "最终回答", []⟩
    rfl rfl rfl rfl

/-- C6: when the query matches the augmentation rule and the resource
fetch or the template rendering raises, the failure is fatal to this
query: `process_query` returns the error description as the query's
result and never contacts the model (zero model requests, zero tool
invocations) — it does not proceed with the unaugmented query. -/
theorem augmentation_failure_fatal (env : Env) (fuel : Nat) (query e : String)
    (hmatch : (isBJ query && isTourist query) = true)
    (hconn : env.mcp_connected = true)
    (hfail : env.read_resource "city-tourist-doc://北京/city-tourist.md" = .error e ∨
      ∃ info, env.read_resource "city-tourist-doc://北京/city-tourist.md" = .ok info ∧
        env.get_prompt "top_beijing_tourist_spots" [("city_info", info)] = .error e) :
    (process_query env fuel query).1 = .returns (some ("❌ 处理查询时出错: " ++ e)) ∧
    (process_query env fuel query).2.countP Event.isModelRequest = 0 ∧
    (process_query env fuel query).2.countP Event.isToolInvoke = 0 := by
  have hsel : (select_prompt_and_enhanced_query env query).1 = .error e := by
    unfold select_prompt_and_enhanced_query
    split
    · rename_i hcond
      rw [hmatch] at hcond
      simp at hcond
    · dsimp only []
      rcases hfail with hr | ⟨info, hr, hp⟩
      · rw [hr]
      · rw [hr]
        dsimp only []
        rw [hp]
  have hsel2 := select_trace_no_model env query
  rcases hpair : select_prompt_and_enhanced_query env query with ⟨r, tr⟩
  rw [hpair] at hsel hsel2
  simp only at hsel
  subst hsel
  simp only [process_query, hconn, process_query_body, hpair]
  exact ⟨rfl, by simpa using hsel2.1, by simpa using hsel2.2.1⟩

/-- Witness for `augmentation_failure_fatal`: in the environment whose
resource reads all fail, the matching query `北京旅游` yields the error
result and no model contact. -/
theorem augmentation_failure_fatal_witness :
    (process_query failEnv 3 "北京旅游").1 =
      .returns (some ("❌ 处理查询时出错: " ++ "Resource not found")) ∧
    (process_query failEnv 3 "北京旅游").2.countP Event.isModelRequest = 0 ∧
    (process_query failEnv 3 "北京旅游").2.countP Event.isToolInvoke = 0 :=
  augmentation_failure_fatal failEnv 3 "北京旅游" "Resource not found"
    (by decide) rfl (Or.inl rfl)

/-- Computation of the `try:` body when augmentation raises. -/
lemma process_query_body_eq_selectError (env : Env) (fuel : Nat) (query e : String)
    (trA : List Event)
    (hsel : select_prompt_and_enhanced_query env query = (.error e, trA)) :
    process_query_body env fuel query = (.exn e, trA) := by
  unfold process_query_body
  rw [hsel]

/-- Computation of the `try:` body when the first model request raises. -/
lemma process_query_body_eq_completeError (env : Env) (fuel : Nat)
    (query enhanced e : String) (trA : List Event)
    (hsel : select_prompt_and_enhanced_query env query = (.ok enhanced, trA))
    (hfirst : env.complete [Message.user enhanced]
        (tools_to_openai_functions env.list_tools) = .error e) :
    process_query_body env fuel query =
      (.exn e, trA ++ [Event.listToolsCalled,
        Event.modelRequest [Message.user enhanced]
          (tools_to_openai_functions env.list_tools)]) := by
  unfold process_query_body
  rw [hsel]
  dsimp only []
  rw [hfirst]

/-- With a session connected, `process_query` is the `except`-wrapper
around the body. -/
lemma process_query_eq_connected (env : Env) (fuel : Nat) (query : String)
    (hconn : env.mcp_connected = true) :
    process_query env fuel query =
      match process_query_body env fuel query with
      | (.ok content, tr) => (.returns content, tr)
      | (.exn e, tr) => (.returns (some ("❌ 处理查询时出错: " ++ e)), tr)
      | (.diverge, tr) => (.diverges, tr) := by
  unfold process_query
  rw [hconn]
  rfl

/-- An event other than `listToolsCalled` fails the `isListTools` test. -/
lemma not_listTools_isFalse (ev : Event) (h : ev ≠ .listToolsCalled) :
    ev.isListTools = false := by
  cases ev <;> simp_all [Event.isListTools]

/-- The tool-call loop never emits a catalog-listing event. -/
lemma loop_no_listTools (env : Env) (tools : List FunctionSchema) (fuel : Nat)
    (messages : List Message) (a : AssistantMsg) :
    Event.listToolsCalled ∉ (process_query_loop env tools fuel messages a).2 :=
  fun h => (loop_trace_props env tools fuel messages a _ h).1 rfl

/-- The tool-call loop contributes no catalog-listing events to the count. -/
lemma loop_countP_listTools (env : Env) (tools : List FunctionSchema) (fuel : Nat)
    (messages : List Message) (a : AssistantMsg) :
    (process_query_loop env tools fuel messages a).2.countP Event.isListTools = 0 :=
  List.countP_eq_zero.mpr fun ev h => by
    simp [not_listTools_isFalse ev (loop_trace_props env tools fuel messages a ev h).1]

/-- C9: every model request of a `process_query` invocation carries the
one function-schema set computed from the session's tool catalog, the
catalog is listed exactly once, and that single listing happens before
the first model request; the message sequence and schema set live only in
this invocation (the embedding is a pure function of the query). -/
theorem schema_fixed_per_query (env : Env) (fuel : Nat) (query : String)
    (ms : List Message) (ts : List FunctionSchema)
    (hmem : Event.modelRequest ms ts ∈ (process_query env fuel query).2) :
    ts = tools_to_openai_functions env.list_tools ∧
    (process_query env fuel query).2.countP Event.isListTools = 1 ∧
    ∃ tr0 tr1, (process_query env fuel query).2 = tr0 ++ Event.listToolsCalled :: tr1 ∧
      (∀ ms2 ts2, Event.modelRequest ms2 ts2 ∉ tr0) ∧
      Event.listToolsCalled ∉ tr1 := by
  by_cases hconn : env.mcp_connected = true
  · obtain ⟨hA1, -, hA3, hA4, -⟩ := select_trace_no_model env query
    rcases hsel : select_prompt_and_enhanced_query env query with ⟨rs, trA⟩
    rw [hsel] at hA1 hA3 hA4
    have hpq := process_query_eq_connected env fuel query hconn
    cases rs with
    | error e =>
      rw [process_query_body_eq_selectError env fuel query e trA hsel] at hpq
      rw [hpq] at hmem
      exact absurd hmem (hA4 ms ts)
    | ok enhanced =>
      cases hfirst : env.complete [Message.user enhanced]
          (tools_to_openai_functions env.list_tools) with
      | error e =>
        rw [process_query_body_eq_completeError env fuel query enhanced e trA hsel hfirst]
          at hpq
        rw [hpq] at hmem ⊢
        refine ⟨?_, ?_, ?_⟩
        · rcases List.mem_append.mp hmem with hA | h2
          · exact absurd hA (hA4 ms ts)
          · rcases List.mem_cons.mp h2 with h2 | h2
            · exact Event.noConfusion h2
            · rcases List.mem_cons.mp h2 with h2 | h2
              · injection h2
              · exact absurd h2 (List.not_mem_nil _)
        · simp [List.countP_append, List.countP_cons, Event.isListTools]
          simpa using hA3
        · exact ⟨trA,
            [Event.modelRequest [Message.user enhanced]
              (tools_to_openai_functions env.list_tools)],
            rfl, hA4, by simp⟩
      | ok a =>
        have hbody := process_query_body_eq env fuel query enhanced trA a hsel hfirst
        rcases hloop : process_query_loop env (tools_to_openai_functions env.list_tools) fuel
            [Message.user enhanced, Message.assistant a.content a.tool_calls] a with ⟨rl, trL⟩
        rw [hloop] at hbody
        have hLprops := loop_trace_props env (tools_to_openai_functions env.list_tools) fuel
          [Message.user enhanced, Message.assistant a.content a.tool_calls] a
        have hLcount := loop_countP_listTools env (tools_to_openai_functions env.list_tools) fuel
          [Message.user enhanced, Message.assistant a.content a.tool_calls] a
        have hLnl := loop_no_listTools env (tools_to_openai_functions env.list_tools) fuel
          [Message.user enhanced, Message.assistant a.content a.tool_calls] a
        rw [hloop] at hLprops hLcount hLnl
        rw [hbody] at hpq
        have hpq2 : (process_query env fuel query).2 =
            trA ++ [Event.listToolsCalled,
              Event.modelRequest [Message.user enhanced]
                (tools_to_openai_functions env.list_tools)] ++ trL := by
          rw [hpq]
          cases rl <;> rfl
        rw [hpq2] at hmem ⊢
        refine ⟨?_, ?_, ?_⟩
        · rcases List.mem_append.mp hmem with h12 | hL
          · rcases List.mem_append.mp h12 with hA | h2
            · exact absurd hA (hA4 ms ts)
            · rcases List.mem_cons.mp h2 with h2 | h2
              · exact Event.noConfusion h2
              · rcases List.mem_cons.mp h2 with h2 | h2
                · injection h2
                · exact absurd h2 (List.not_mem_nil _)
          · exact ((hLprops _ hL).2 ms ts rfl)
        · simp [List.countP_append, List.countP_cons, Event.isListTools, hLcount]
          simpa using hA3
        · refine ⟨trA,
            Event.modelRequest [Message.user enhanced]
              (tools_to_openai_functions env.list_tools) :: trL,
            by simp, hA4, ?_⟩
          simp only [List.mem_cons, not_or]
          exact ⟨by simp, hLnl⟩
  · rw [Bool.not_eq_true] at hconn
    have : process_query env fuel query = (.returns (some "❌ 未连接到MCP服务器"), []) := by
      unfold process_query
      rw [hconn]
      rfl
    rw [this] at hmem
    simp at hmem

/-- Witness for `schema_fixed_per_query`: the single model request of a
no-tool conversation in the demo environment carries the demo catalog's
schemas, and the catalog was listed exactly once, before it. -/
theorem schema_fixed_per_query_witness :
    tools_to_openai_functions demoTools =
        tools_to_openai_functions demoEnv.list_tools ∧
    (process_query demoEnv 0 "hi").2.countP Event.isListTools = 1 ∧
    ∃ tr0 tr1, (process_query demoEnv 0 "hi").2 =
        tr0 ++ Event.listToolsCalled :: tr1 ∧
      (∀ ms2 ts2, Event.modelRequest ms2 ts2 ∉ tr0) ∧
      Event.listToolsCalled ∉ tr1 :=
  have h := schema_fixed_per_query demoEnv 0 "hi" [Message.user "hi"]
    (tools_to_openai_functions demoTools) (by decide)
  ⟨h.1, h.2.1, h.2.2⟩

/-- C1 counterexample: in `cexEnv` the first model response carries two
tool calls and the first one's arguments text fails to parse.  Contrary
to the claim, the failure is not converted into a `{role: tool}` result:
the whole query terminates with the query-level error string, and the
second tool call of the same turn is never invoked (the trace contains no
tool invocation at all). -/
theorem tool_failure_not_recovered_cex :
    (process_query cexEnv 1 "hi").1 =
      .returns (some ("❌ 处理查询时出错: " ++ "Expecting value")) ∧
    (process_query cexEnv 1 "hi").2.countP Event.isToolInvoke = 0 :=
  ⟨rfl, rfl⟩

/-- C1 amended: when invoking a ToolCall raises or parsing its arguments
text raises, the exception propagates out of the turn: the remaining
ToolCalls are not executed, no error ToolResult is appended, and
`process_query` returns the error string carrying the exception
description — the trace ends with the failed tool-execution phase, with
no further model request. -/
theorem tool_failure_aborts_query (env : Env) (n : Nat)
    (query enhanced e : String) (trA trE : List Event) (a : AssistantMsg)
    (hconn : env.mcp_connected = true)
    (hsel : select_prompt_and_enhanced_query env query = (.ok enhanced, trA))
    (hfirst : env.complete [Message.user enhanced]
        (tools_to_openai_functions env.list_tools) = .ok a)
    (hfail : execTools env a.tool_calls
        [Message.user enhanced, Message.assistant a.content a.tool_calls] =
        (.error e, trE)) :
    process_query env (Nat.succ n) query =
      (.returns (some ("❌ 处理查询时出错: " ++ e)),
       trA ++ [Event.listToolsCalled,
         Event.modelRequest [Message.user enhanced]
           (tools_to_openai_functions env.list_tools)] ++ trE) := by
  have hne : a.tool_calls.isEmpty = false := by
    cases hcalls : a.tool_calls with
    | nil => rw [hcalls] at hfail; simp [execTools] at hfail
    | cons c rest => simp
  have hloop : process_query_loop env (tools_to_openai_functions env.list_tools)
      (Nat.succ n) [Message.user enhanced, Message.assistant a.content a.tool_calls] a =
      (.exn e, trE) := by
    unfold process_query_loop
    rw [hne]
    dsimp only []
    rw [hfail]
    rfl
  have hbody := process_query_body_eq env (Nat.succ n) query enhanced trA a hsel hfirst
  rw [hloop] at hbody
  rw [process_query_eq_connected env (Nat.succ n) query hconn, hbody]

/-- Witness for `tool_failure_aborts_query` in `cexEnv`: the parse
failure of the first call aborts the query with the error string. -/
theorem tool_failure_aborts_query_witness :
    process_query cexEnv 1 "hi" =
      (.returns (some ("❌ 处理查询时出错: " ++ "Expecting value")),
       [] ++ [Event.listToolsCalled,
         Event.modelRequest [Message.user "hi"]
           (tools_to_openai_functions cexEnv.list_tools)] ++ []) :=
  tool_failure_aborts_query cexEnv 0 "hi" "hi" "Expecting value" [] []
    ⟨none, [tcBad, tcGood]⟩ rfl rfl rfl rfl

/-- C10 counterexample: the claim says `process_query` returns a string
for every query, but when the model's final assistant message carries
null content the code returns that `None` content as is. -/
theorem null_content_returned_cex :
    (process_query nullEnv 1 "你好").1 = .returns none :=
  rfl

/-- C10 amended: `process_query` never propagates an exception — with no
session connected it returns the fixed not-connected string, contacting
nothing; when the body raises it returns the error string carrying the
exception description; otherwise it returns the final assistant content,
which is a string except when that content is null. -/
theorem process_query_never_raises (env : Env) (fuel : Nat) (query : String) :
    (env.mcp_connected = false →
      process_query env fuel query = (.returns (some "❌ 未连接到MCP服务器"), [])) ∧
    (∀ e tr, process_query_body env fuel query = (.exn e, tr) →
      env.mcp_connected = true →
      process_query env fuel query =
        (.returns (some ("❌ 处理查询时出错: " ++ e)), tr)) ∧
    (∀ c tr, process_query_body env fuel query = (.ok c, tr) →
      env.mcp_connected = true →
      process_query env fuel query = (.returns c, tr)) := by
  refine ⟨?_, ?_, ?_⟩
  · intro hconn
    unfold process_query
    rw [hconn]
    rfl
  · intro e tr hbody hconn
    rw [process_query_eq_connected env fuel query hconn, hbody]
  · intro c tr hbody hconn
    rw [process_query_eq_connected env fuel query hconn, hbody]

/-- Witness for `process_query_never_raises`, exercising all three
shapes: the not-connected environment, a raising body, and a normal
return. -/
theorem process_query_never_raises_witness :
    process_query discEnv 0 "hi" = (.returns (some "❌ 未连接到MCP服务器"), []) ∧
    process_query failEnv 0 "北京旅游" =
      (.returns (some ("❌ 处理查询时出错: " ++ "Resource not found")),
       [Event.resourceRead "city-tourist-doc://北京/city-tourist.md"]) ∧
    process_query demoEnv 0 "hi" =
      (.returns (some "最终回答"),
       [Event.listToolsCalled,
        Event.modelRequest [Message.user "hi"] (tools_to_openai_functions demoTools)]) :=
  ⟨(process_query_never_raises discEnv 0 "hi").1 rfl,
   (process_query_never_raises failEnv 0 "北京旅游").2.1 "Resource not found"
     [Event.resourceRead "city-tourist-doc://北京/city-tourist.md"] rfl rfl,
   (process_query_never_raises demoEnv 0 "hi").2.2 (some "最终回答")
     [Event.listToolsCalled,
      Event.modelRequest [Message.user "hi"] (tools_to_openai_functions demoTools)] rfl rfl⟩

end MCPDemo
